import Mathlib

/-!
Shallow embedding of the hubproxy durability & delivery core, with proofs
checking the natural-language specification against the code.

Conventions of the embedding:
* Go `time.Time` values are modelled as `Int` (an abstract instant);
  the distinguished Go zero time is modelled as `none` where the code
  tests `IsZero`, and nullable timestamps (`*time.Time`) as `Option Int`.
* Raw byte blobs (`json.RawMessage`, request bodies) are modelled as
  `String`; a nil slice is `Option.none` where nil-ness matters.
* A SQL table is a `List` of rows in physical (insertion) order; a SQL
  query without an ORDER BY clause returns rows in that order, an
  `ORDER BY created_at DESC` query returns a descending sort, `LIMIT l
  OFFSET o` drops `o` rows and then takes `l`.
* Calls into the Go standard library (the HMAC digest, `json.Unmarshal`,
  `net.ParseIP`/`net.ParseCIDR`, the HTTP client) are external to the
  repository; they are modelled either as explicit executable functions
  or as parameters carrying the call's result, as documented at each use.
-/

namespace Hubproxy

/-! ## Event rows and query options (internal/storage)

`EventRow` is the row shape of the `events` table used by the SQL base
storage (`BaseStorage`, unnamed part_011): columns `id, type, payload,
created_at, status, error, repository, sender`.
-/

/-- A row of the `events` table as read and written by `BaseStorage`
(columns `id, type, payload, created_at, status, error, repository,
sender`). -/
structure EventRow where
  id : String
  type : String
  payload : String
  createdAt : Int
  status : String
  errorMsg : String
  repository : String
  sender : String
deriving Repr, DecidableEq

/-- `storage.QueryOptions`: filter and pagination descriptor.
`since`/`until_` are `none` when the Go `time.Time` is the zero value
(the code tests `IsZero` before adding the condition). -/
structure QueryOptions where
  types : List String := []
  repository : String := ""
  sender : String := ""
  since : Option Int := none
  until_ : Option Int := none
  status : String := ""
  limit : Int := 0
  offset : Int := 0
deriving Repr, DecidableEq

/-- `BaseStorage.addQueryConditions` as a row predicate: each non-empty
filter adds a conjunctive WHERE condition. -/
def matchesOpts (o : QueryOptions) (r : EventRow) : Bool :=
  (decide (o.types = []) || o.types.contains r.type)
    && (match o.since with
        | none => true
        | some t => decide (t ≤ r.createdAt))
    && (match o.until_ with
        | none => true
        | some t => decide (r.createdAt ≤ t))
    && (decide (o.status = "") || decide (r.status = o.status))
    && (decide (o.repository = "") || decide (r.repository = o.repository))
    && (decide (o.sender = "") || decide (r.sender = o.sender))

/-! ## BaseStorage.StoreEvent (unnamed part_011, lines 43-94)

The code first probes for a row with the same `id`; if one exists it
issues an UPDATE setting `type, payload, created_at, status, error,
repository, sender` to the incoming event's values, otherwise it INSERTs
the event.
-/

/-- The UPDATE branch of `BaseStorage.StoreEvent`: every row whose `id`
matches is overwritten with the incoming event's field values. -/
def updateEventRow (e : EventRow) (r : EventRow) : EventRow :=
  if r.id = e.id then
    { r with
      type := e.type
      payload := e.payload
      createdAt := e.createdAt
      status := e.status
      errorMsg := e.errorMsg
      repository := e.repository
      sender := e.sender }
  else r

/-- `BaseStorage.StoreEvent`: existence probe, then UPDATE if present,
INSERT otherwise. Always succeeds in this model (the SQL driver errors
are environmental). -/
def storeEvent (tbl : List EventRow) (e : EventRow) : List EventRow :=
  if tbl.any (fun r => r.id = e.id) then
    tbl.map (updateEventRow e)
  else
    tbl ++ [e]

/-! ## ORDER BY created_at DESC

Model of the SQL sort added by `query.OrderBy("created_at DESC")`:
an insertion sort producing rows in descending `created_at` order.
-/

/-- Insert a row into a descending-by-`createdAt` list, keeping it
descending. -/
def insertDesc (e : EventRow) : List EventRow → List EventRow
  | [] => [e]
  | x :: xs =>
    if x.createdAt ≤ e.createdAt then e :: x :: xs
    else x :: insertDesc e xs

/-- Sort rows by `created_at` descending (the `ORDER BY created_at DESC`
clause). -/
def sortByCreatedAtDesc (l : List EventRow) : List EventRow :=
  l.foldr insertDesc []

/-- Row `b` does not postdate row `a`: the ordering relation of a page
sorted by `created_at` descending. -/
def createdDesc (a b : EventRow) : Prop := b.createdAt ≤ a.createdAt

/-- Go `math.MaxInt` on a 64-bit build, used by the bounds clamp in
`BaseStorage.ListEvents`. -/
def goMaxInt : Int := 2 ^ 63 - 1

/-- `BaseStorage.CountEvents` (part_011): `SELECT COUNT(*)` under
`addQueryConditions` only — no limit or offset. -/
def countEventsBase (tbl : List EventRow) (o : QueryOptions) : Int :=
  ((tbl.filter (matchesOpts o)).length : Int)

/-- `BaseStorage.ListEvents` (part_011, lines 97-161): filter, order by
`created_at DESC`, apply `LIMIT/OFFSET` only when `opts.Limit > 0`
(clamping both into `[0, math.MaxInt]`), then fetch the total from
`CountEvents` with the same options. -/
def listEventsBase (tbl : List EventRow) (o : QueryOptions) :
    List EventRow × Int :=
  let rows := sortByCreatedAtDesc (tbl.filter (matchesOpts o))
  let page :=
    if 0 < o.limit then
      let limit := if o.limit < 0 then 0
        else if goMaxInt < o.limit then goMaxInt else o.limit
      let offset := if o.offset < 0 then 0
        else if goMaxInt < o.offset then goMaxInt else o.offset
      (rows.drop offset.toNat).take limit.toNat
    else rows
  (page, countEventsBase tbl o)

/-- `Storage.ListEvents` (part_016, lines 358-410): count first under
the filter conditions only, then run the page query — which has NO
`ORDER BY` clause, so rows come back in table order — applying `LIMIT`
when `opts.Limit > 0` and `OFFSET` when `opts.Offset > 0`. -/
def listEventsStorage (tbl : List EventRow) (o : QueryOptions) :
    List EventRow × Int :=
  let rows := tbl.filter (matchesOpts o)
  let total := ((rows.length : Nat) : Int)
  let afterOffset := if 0 < o.offset then rows.drop o.offset.toNat else rows
  let page := if 0 < o.limit then afterOffset.take o.limit.toNat else afterOffset
  (page, total)

/-! ## The forwarding-era event record (internal/storage/errors.go third
snapshot; used by the forwarder, MarkForwarded and the replay engines)

`headers` is the raw `json.RawMessage` blob (`none` models a nil slice,
the Go zero value of the field).
-/

/-- `storage.Event` in its forwarding-era shape: `Headers` raw blob,
nullable `ForwardedAt`, replay provenance fields. -/
structure EventRecord where
  id : String
  type : String
  headers : Option String
  payload : String
  createdAt : Int
  forwardedAt : Option Int
  status : String
  errorMsg : String
  repository : String
  sender : String
  replayedFrom : String
  originalTime : Int
deriving Repr, DecidableEq

/-- `Storage.MarkForwarded` (part_016, lines 452-470): an unconditional
`UPDATE events SET forwarded_at = time.Now() WHERE id = ?`; if no row
was affected the call fails with "event not found". `now` is the
`time.Now()` instant of the call. -/
def markForwarded (tbl : List EventRecord) (id : String) (now : Int) :
    Except String (List EventRecord) :=
  let updated := tbl.map (fun r =>
    if r.id = id then { r with forwardedAt := some now } else r)
  if (tbl.filter (fun r => r.id = id)).length = 0 then
    Except.error "event not found"
  else
    Except.ok updated

/-! ## Replay engines

Two live replay constructors build the new event record from a source
event, a freshly generated UUID suffix and the current time:
* the REST handler (`internal/api/handler.go`, `ReplayEvent` lines
  156-215 and `ReplayRange` lines 218-326) — its struct literal does not
  mention `Headers`, which therefore stays at the Go zero value (nil);
* the GraphQL resolvers (part_027, `resolveReplayEvent` lines 141-182
  and `resolveReplayRange` lines 185-262) — these copy `event.Headers`.
-/

/-- The replay record built by the REST handler (`Handler.ReplayEvent`
and, per element, `Handler.ReplayRange`): id
`{originalId}-replay-{uuid}`, `type/payload/repository/sender` copied,
`createdAt = now`, `status = "replayed"`, `replayedFrom` and
`originalTime` set; `headers`, `forwardedAt` and `error` are left at
their zero values. -/
def mkReplayEventREST (src : EventRecord) (uuidSuffix : String)
    (now : Int) : EventRecord :=
  { id := src.id ++ "-replay-" ++ uuidSuffix
    type := src.type
    headers := none
    payload := src.payload
    createdAt := now
    forwardedAt := none
    status := "replayed"
    errorMsg := ""
    repository := src.repository
    sender := src.sender
    replayedFrom := src.id
    originalTime := src.createdAt }

/-- The replay record built by the GraphQL resolvers
(`Schema.resolveReplayEvent` and, per element,
`Schema.resolveReplayRange`): as the REST one but with
`Headers: event.Headers` copied. -/
def mkReplayEventGraphQL (src : EventRecord) (uuidSuffix : String)
    (now : Int) : EventRecord :=
  { id := src.id ++ "-replay-" ++ uuidSuffix
    type := src.type
    headers := src.headers
    payload := src.payload
    createdAt := now
    forwardedAt := none
    status := "replayed"
    errorMsg := ""
    repository := src.repository
    sender := src.sender
    replayedFrom := src.id
    originalTime := src.createdAt }

/-! ## WebhookForwarder.forwardEvent (part_023, lines 96-159)

Control flow of one delivery attempt: build the outbound request from
the stored payload; `json.Unmarshal` the stored header blob into a
header map — on error, log, count a forwarding error and RETURN (no
request is made); otherwise replay the headers, send, and on a response
with status < 400 mark the event forwarded.

The two standard-library effects are modelled as parameters:
`parsedHeaders` is the result of `json.Unmarshal(event.Headers, ...)`
(`none` = the blob is missing/nil or not valid JSON for
`map[string][]string`), and `sendResult` is the result of
`httpClient.Do` (`none` = transport error, `some st` = a response with
status code `st`).
-/

/-- Observable outcome of one `forwardEvent` call: the body handed to
the HTTP client (`none` when no request was made), whether
`MarkForwarded` was invoked, and whether the forwarding-error counter
was incremented. -/
structure ForwardOutcome where
  bodySent : Option String
  markedForwarded : Bool
  errorCounted : Bool
deriving Repr, DecidableEq

/-- `WebhookForwarder.forwardEvent`: header-parse failure aborts the
event before any request; a transport error or a status ≥ 400 counts an
error and leaves the event unforwarded; otherwise the event is marked
forwarded. -/
def forwardEvent (ev : EventRecord)
    (parsedHeaders : Option (List (String × List String)))
    (sendResult : Option Int) : ForwardOutcome :=
  match parsedHeaders with
  | none => { bodySent := none, markedForwarded := false, errorCounted := true }
  | some _ =>
    match sendResult with
    | none =>
      { bodySent := some ev.payload, markedForwarded := false, errorCounted := true }
    | some st =>
      if 400 ≤ st then
        { bodySent := some ev.payload, markedForwarded := false, errorCounted := true }
      else
        { bodySent := some ev.payload, markedForwarded := true, errorCounted := false }

/-! ## Signature verification (internal/webhook/handler.go, first
snapshot, `Handler.VerifySignature` lines 93-139)

The header value is the Go `header.Get("X-Hub-Signature-256")` result
(`""` when the header is absent). The code checks presence, the
`"sha256="` text, hex-decodes the remainder (`hex.DecodeString`), and
compares the decoded bytes against the freshly computed HMAC digest with
`hmac.Equal`. The digest `mac.Sum(nil)` — HMAC-SHA256 over the raw body
keyed by the shared secret, computed by Go's crypto library — enters the
model as the `digest` parameter.
-/

/-- Go `hex` package digit value: `0-9`, `a-f`, `A-F`. -/
def fromHexChar (c : Char) : Option Nat :=
  if '0' ≤ c ∧ c ≤ '9' then some (c.toNat - 48)
  else if 'a' ≤ c ∧ c ≤ 'f' then some (c.toNat - 97 + 10)
  else if 'A' ≤ c ∧ c ≤ 'F' then some (c.toNat - 65 + 10)
  else none

/-- Go `hex.DecodeString` over a character list: bytes from successive
digit pairs; odd length or a non-hex character is an error (`none`). -/
def hexDecodeChars : List Char → Option (List Nat)
  | [] => some []
  | [_] => none
  | a :: b :: rest =>
    match fromHexChar a, fromHexChar b, hexDecodeChars rest with
    | some hi, some lo, some bs => some ((hi * 16 + lo) :: bs)
    | _, _, _ => none

/-- Go `hex` lowercase digit table entry. -/
def toHexChar (n : Nat) : Char :=
  if n < 10 then Char.ofNat (48 + n) else Char.ofNat (87 + n)

/-- Go `hex.EncodeToString`: two lowercase digits per byte. -/
def hexEncode (bs : List Nat) : String :=
  String.mk (bs.flatMap (fun b => [toHexChar (b / 16 % 16), toHexChar (b % 16)]))

/-- Go `strings.HasPrefix` over character lists. -/
def listHasPref : List Char → List Char → Bool
  | [], _ => true
  | _ :: _, [] => false
  | p :: ps, c :: cs => p = c && listHasPref ps cs

/-- `Handler.VerifySignature`: reject a missing header, a header without
the `"sha256="` text, a remainder that is not valid hex, and decoded
bytes that differ from the HMAC digest; otherwise succeed. `sig` is the
`X-Hub-Signature-256` value (`""` = absent), `digest` the computed
HMAC-SHA256 bytes. -/
def verifySignature (digest : List Nat) (sig : String) : Except String Unit :=
  if sig = "" then Except.error "missing signature"
  else if !(listHasPref "sha256=".toList sig.toList) then
    Except.error "invalid signature format"
  else
    match hexDecodeChars (sig.toList.drop 7) with
    | none => Except.error "invalid signature hex"
    | some provided =>
      if provided = digest then Except.ok ()
      else Except.error "invalid signature"

/-! ## Coalesced trigger queues (part_023 and part_007)

Both `NewWebhookForwarder` (part_023, line 87) and
`NewDBMetricsCollector` (part_007, line 29) create their wake-up queue
as `make(chan struct{}, 1)`, and both enqueue methods
(`EnqueueProcessEvents`, part_023 lines 190-197;
`EnqueueGatherMetrics`, part_007 lines 48-55) are a `select` with a
`default` branch: a non-blocking try-send that is a no-op when the
buffer is full. The channel is modelled by its number of pending
signals; `consume` is the worker loop's receive.
-/

/-- Buffer capacity of the forwarder's trigger channel:
`make(chan struct{}, 1)`. -/
def forwarderQueueCapacity : Nat := 1

/-- Buffer capacity of the metrics collector's trigger channel:
`make(chan struct{}, 1)`. -/
def collectorQueueCapacity : Nat := 1

/-- The `select { case queue <- struct{}{}: ... default: ... }` shape:
append a signal when the buffer has room, otherwise do nothing. Always
returns — the caller is never blocked. -/
def tryEnqueue (cap pending : Nat) : Nat :=
  if pending < cap then pending + 1 else pending

/-- One interaction with a trigger channel: an enqueue attempt or the
worker consuming a pending signal. -/
inductive TriggerOp where
  | enqueue : TriggerOp
  | consume : TriggerOp
deriving Repr, DecidableEq

/-- Effect of one operation on the number of pending signals. -/
def triggerStep (cap : Nat) (pending : Nat) : TriggerOp → Nat
  | TriggerOp.enqueue => tryEnqueue cap pending
  | TriggerOp.consume => pending - 1

/-- Pending-signal count after an arbitrary interleaving of enqueues
and consumes, starting from an empty channel. -/
def runTriggerQueue (cap : Nat) (ops : List TriggerOp) : Nat :=
  ops.foldl (triggerStep cap) 0

/-! ## Origin allowlist (part_005, `security.IPValidator`)

`net.ParseIP` / `net.ParseCIDR` are standard-library calls; they are
modelled for IPv4 dotted-quad addresses (the shape of GitHub's hook
ranges), faithful to Go's parser: decimal octets `0-255`, no leading
zeros, mask bits `0-32`. `Update`'s HTTP fetch of
`https://api.github.com/meta` and the JSON decode of its body are
modelled by the `fetched` parameter (`none` = either step failed,
`some hooks` = the decoded `hooks` range list).
-/

/-- Split a character list at a separator (the shape of Go's
`strings.Split` used through `net`'s address parsing). -/
def splitOnChar (sep : Char) : List Char → List (List Char)
  | [] => [[]]
  | c :: cs =>
    if c = sep then [] :: splitOnChar sep cs
    else
      match splitOnChar sep cs with
      | [] => [[c]]
      | g :: gs => (c :: g) :: gs

/-- One decimal octet of an IPv4 address (Go: 0-255, no leading
zeros). -/
def parseDecOctet (cs : List Char) : Option Nat :=
  if cs.length = 0 ∨ 3 < cs.length then none
  else if cs.any (fun c => !c.isDigit) then none
  else if 1 < cs.length ∧ cs.head? = some '0' then none
  else
    let v := cs.foldl (fun a c => a * 10 + (c.toNat - 48)) 0
    if v ≤ 255 then some v else none

/-- Models Go `net.ParseIP` restricted to IPv4 dotted-quad form,
returning the address as a 32-bit value. -/
def parseIPv4 (s : String) : Option Nat :=
  match splitOnChar '.' s.toList with
  | [a, b, c, d] =>
    match parseDecOctet a, parseDecOctet b, parseDecOctet c, parseDecOctet d with
    | some x, some y, some z, some w =>
      some (((x * 256 + y) * 256 + z) * 256 + w)
    | _, _, _, _ => none
  | _ => none

/-- Number of mask bits in a CIDR suffix (Go: 0-32, no leading
zeros). -/
def parseMaskBits (cs : List Char) : Option Nat :=
  match parseDecOctet cs with
  | some n => if n ≤ 32 then some n else none
  | none => none

/-- A parsed `*net.IPNet`: the masked network address and the mask
width. -/
structure CIDRNet where
  network : Nat
  bits : Nat
deriving Repr, DecidableEq

/-- Models Go `net.ParseCIDR` (IPv4): `"a.b.c.d/n"`, returning the
network with the host bits masked off, as `net.ParseCIDR` does. -/
def parseCIDR (s : String) : Option CIDRNet :=
  match splitOnChar '/' s.toList with
  | [ipChars, bitsChars] =>
    match parseIPv4 (String.mk ipChars), parseMaskBits bitsChars with
    | some ip, some n =>
      some { network := ip / 2 ^ (32 - n) * 2 ^ (32 - n), bits := n }
    | _, _ => none
  | _ => none

/-- Go `(*net.IPNet).Contains`: mask the address and compare with the
network. -/
def cidrContains (c : CIDRNet) (ip : Nat) : Bool :=
  ip / 2 ^ (32 - c.bits) * 2 ^ (32 - c.bits) = c.network

/-- `security.IPValidator` mutable state: the CIDR set and the
last-update stamp (the lock is the sequentialization of this model). -/
structure IPValidator where
  webhookCIDR : List CIDRNet := []
  lastUpdate : Int := 0
deriving Repr, DecidableEq

/-- The zero-valued validator built by `NewIPValidator` (part_005,
lines 28-42) before any successful update: `webhookCIDR` nil. With
`skipUpdates` the constructor returns it as is; otherwise a failed
initial `Update()` leaves it unchanged too. -/
def newIPValidator : IPValidator := {}

/-- `IPValidator.IsGitHubIP` (part_005, lines 75-90): parse the address
(`nil` parse → false), then scan the CIDR set. -/
def isGitHubIP (v : IPValidator) (ipStr : String) : Bool :=
  match parseIPv4 ipStr with
  | none => false
  | some ip => v.webhookCIDR.any (fun c => cidrContains c ip)

/-- The CIDR-parsing loop of `IPValidator.Update` (part_005, lines
57-64): first bad range aborts with an error naming it; otherwise all
parsed ranges, in order. -/
def parseCIDRList : List String → Except String (List CIDRNet)
  | [] => Except.ok []
  | c :: rest =>
    match parseCIDR c with
    | none => Except.error c
    | some ipNet =>
      match parseCIDRList rest with
      | Except.error e => Except.error e
      | Except.ok cs => Except.ok (ipNet :: cs)

/-- `IPValidator.Update` (part_005, lines 45-72) as a state
transformer: a fetch/decode failure or any CIDR parse failure returns
before the locked section, leaving the state untouched; on success the
set and the stamp are replaced in one step under the lock. -/
def runUpdate (fetched : Option (List String)) (now : Int)
    (v : IPValidator) : IPValidator × Except String Unit :=
  match fetched with
  | none => (v, Except.error "fetching or decoding GitHub meta")
  | some hooks =>
    match parseCIDRList hooks with
    | Except.error c => (v, Except.error ("parsing CIDR " ++ c))
    | Except.ok cidrs =>
      ({ webhookCIDR := cidrs, lastUpdate := now }, Except.ok ())

/-! ## Helper lemmas -/

theorem mem_insertDesc {y e : EventRow} {l : List EventRow} :
    y ∈ insertDesc e l ↔ y = e ∨ y ∈ l := by
  induction l with
  | nil => simp [insertDesc]
  | cons x xs ih =>
    by_cases h : x.createdAt ≤ e.createdAt
    · simp [insertDesc, h]
    · simp only [insertDesc, if_neg h, List.mem_cons, ih]
      tauto

theorem pairwise_insertDesc {e : EventRow} {l : List EventRow}
    (hl : List.Pairwise createdDesc l) :
    List.Pairwise createdDesc (insertDesc e l) := by
  induction l with
  | nil => simp [insertDesc, List.pairwise_cons]
  | cons x xs ih =>
    rcases List.pairwise_cons.mp hl with ⟨hx, hxs⟩
    by_cases h : x.createdAt ≤ e.createdAt
    · rw [insertDesc, if_pos h]
      refine List.pairwise_cons.mpr ⟨?_, hl⟩
      intro y hy
      rcases List.mem_cons.mp hy with rfl | hy
      · exact h
      · exact le_trans (hx y hy) h
    · rw [insertDesc, if_neg h]
      refine List.pairwise_cons.mpr ⟨?_, ih hxs⟩
      intro y hy
      rcases mem_insertDesc.mp hy with rfl | hy
      · exact le_of_lt (lt_of_not_le h)
      · exact hx y hy

theorem pairwise_sortByCreatedAtDesc (l : List EventRow) :
    List.Pairwise createdDesc (sortByCreatedAtDesc l) := by
  induction l with
  | nil => simp [sortByCreatedAtDesc]
  | cons x xs ih => exact pairwise_insertDesc ih

theorem matchesOpts_pagination_irrelevant (o : QueryOptions) (l x : Int) :
    matchesOpts { o with limit := l, offset := x } = matchesOpts o := rfl

theorem foldl_triggerStep_le (cap : Nat) (ops : List TriggerOp) :
    ∀ p : Nat, p ≤ cap → List.foldl (triggerStep cap) p ops ≤ cap := by
  induction ops with
  | nil => intro p hp; simpa using hp
  | cons op rest ih =>
    intro p hp
    simp only [List.foldl_cons]
    apply ih
    cases op with
    | enqueue =>
      simp only [triggerStep, tryEnqueue]
      split <;> omega
    | consume =>
      simp only [triggerStep]
      omega

theorem parseCIDRList_ok_all_parse {hooks : List String} {cs : List CIDRNet}
    (h : parseCIDRList hooks = Except.ok cs) :
    ∀ c ∈ hooks, (parseCIDR c).isSome := by
  induction hooks generalizing cs with
  | nil => intro c hc; cases hc
  | cons a rest ih =>
    intro c hc
    simp only [parseCIDRList] at h
    cases hpa : parseCIDR a with
    | none => rw [hpa] at h; cases h
    | some ipNet =>
      rw [hpa] at h
      cases hrest : parseCIDRList rest with
      | error e => rw [hrest] at h; cases h
      | ok cs' =>
        rcases List.mem_cons.mp hc with rfl | hc
        · simp [hpa]
        · exact ih hrest c hc

/-! ## Claim C1 — duplicate-id inserts -/

/-- A first delivery as stored by the ingestion path. -/
def dupEventFirst : EventRow :=
  { id := "evt-1", type := "push", payload := "p1", createdAt := 1,
    status := "received", errorMsg := "", repository := "org/repo",
    sender := "alice" }

/-- A second delivery reusing the same `id` with different field
values. -/
def dupEventSecond : EventRow :=
  { dupEventFirst with payload := "p2", status := "other", createdAt := 2 }

/-- C1: claimed first-writer-wins dedup fails on
`BaseStorage.StoreEvent` — storing a second event with an id already
present UPDATEs the stored row to the second call's field values, so the
first stored row does not survive. Evaluation of the embedded code at
the failing input: after the two calls the table holds the second
event's values, which differ from the first's. -/
theorem storeEvent_duplicate_overwrites :
    storeEvent (storeEvent [] dupEventFirst) dupEventSecond = [dupEventSecond] ∧
    dupEventSecond.payload ≠ dupEventFirst.payload := by
  exact ⟨rfl, by decide⟩

/-! ## Claim C2 — MarkForwarded overwrites -/

/-- A row already marked forwarded (at instant 5). -/
def forwardedRow : EventRecord :=
  { id := "evt-f", type := "push", headers := none, payload := "p",
    createdAt := 1, forwardedAt := some 5, status := "", errorMsg := "",
    repository := "", sender := "", replayedFrom := "", originalTime := 0 }

/-- C2 counterexample: a second `MarkForwarded` call (at instant 9) on
an already-forwarded id succeeds and replaces the stored `forwardedAt`
(5) with the new instant — the claim that the stored value does not
change is false. -/
theorem markForwarded_overwrite_cex :
    markForwarded [forwardedRow] "evt-f" 9 =
      Except.ok [{ forwardedRow with forwardedAt := some 9 }] ∧
    ({ forwardedRow with forwardedAt := some 9 }).forwardedAt ≠
      forwardedRow.forwardedAt := by
  exact ⟨rfl, by decide⟩

/-- C2 (amended): `MarkForwarded` is an unconditional update — when no
row carries the id it fails with "event not found"; when it succeeds,
every row with the id has its `forwardedAt` set to the call's instant
(overwriting any earlier value) and every other row is unchanged. -/
theorem markForwarded_behavior (tbl : List EventRecord) (id : String) (now : Int) :
    ((∀ r ∈ tbl, r.id ≠ id) →
      markForwarded tbl id now = Except.error "event not found") ∧
    (∀ tbl', markForwarded tbl id now = Except.ok tbl' →
      (∀ r ∈ tbl, r.id = id → { r with forwardedAt := some now } ∈ tbl') ∧
      (∀ r ∈ tbl, r.id ≠ id → r ∈ tbl')) := by
  constructor
  · intro h
    have hfil : tbl.filter (fun r => r.id = id) = [] := by
      rw [List.filter_eq_nil_iff]
      intro r hr
      simpa using h r hr
    simp [markForwarded, hfil]
  · intro tbl' h
    have hupd : tbl' = tbl.map (fun r =>
        if r.id = id then { r with forwardedAt := some now } else r) := by
      by_cases hz : (tbl.filter (fun r => r.id = id)).length = 0
      · simp [markForwarded, hz] at h
      · simp only [markForwarded, if_neg hz] at h
        exact (Except.ok.inj h).symm
    subst hupd
    constructor
    · intro r hr hid
      have hm := List.mem_map_of_mem
        (fun r => if r.id = id then { r with forwardedAt := some now } else r) hr
      simpa [hid] using hm
    · intro r hr hid
      have hm := List.mem_map_of_mem
        (fun r => if r.id = id then { r with forwardedAt := some now } else r) hr
      simpa [hid] using hm

/-- Witness for C2 (amended): applied to a one-row table whose row is
already forwarded at 5, a `MarkForwarded` at 9 yields the row with
`forwardedAt = 9`. -/
theorem markForwarded_behavior_witness :
    { forwardedRow with forwardedAt := some 9 } ∈
      [{ forwardedRow with forwardedAt := some 9 }] :=
  ((markForwarded_behavior [forwardedRow] "evt-f" 9).2
    [{ forwardedRow with forwardedAt := some 9 }] rfl).1
    forwardedRow (List.mem_singleton_self _) rfl

/-! ## Claim C3 — replay field copying -/

/-- A source event for replay, carrying a stored header blob. -/
def replaySource : EventRecord :=
  { id := "evt-1", type := "push", headers := some "hdrblob",
    payload := "payload-bytes", createdAt := 4, forwardedAt := none,
    status := "received", errorMsg := "", repository := "org/repo",
    sender := "alice", replayedFrom := "", originalTime := 0 }

/-- C3 counterexample: the REST replay path builds the new event without
copying the source's header blob — for a source with stored headers the
replay's headers are not byte-identical to the source's (they are
empty). -/
theorem replayREST_headers_cex :
    replaySource.headers = some "hdrblob" ∧
    (mkReplayEventREST replaySource "u1" 9).headers ≠ replaySource.headers := by
  exact ⟨rfl, by decide⟩

/-- C3 (amended): for every replay the payload is copied verbatim, the
id is `{originalId}-replay-{suffix}`, `replayedFrom` is the source id,
`originalTime` is the source's `createdAt`, and `forwardedAt` is unset;
the GraphQL replay path also copies the header blob verbatim, while the
REST replay path leaves the replay's headers empty. -/
theorem replay_field_provenance (src : EventRecord) (u : String) (now : Int) :
    (mkReplayEventGraphQL src u now).payload = src.payload ∧
    (mkReplayEventGraphQL src u now).headers = src.headers ∧
    (mkReplayEventGraphQL src u now).id = src.id ++ "-replay-" ++ u ∧
    (mkReplayEventGraphQL src u now).replayedFrom = src.id ∧
    (mkReplayEventGraphQL src u now).originalTime = src.createdAt ∧
    (mkReplayEventGraphQL src u now).forwardedAt = none ∧
    (mkReplayEventGraphQL src u now).createdAt = now ∧
    (mkReplayEventREST src u now).payload = src.payload ∧
    (mkReplayEventREST src u now).headers = none ∧
    (mkReplayEventREST src u now).id = src.id ++ "-replay-" ++ u ∧
    (mkReplayEventREST src u now).replayedFrom = src.id ∧
    (mkReplayEventREST src u now).originalTime = src.createdAt ∧
    (mkReplayEventREST src u now).forwardedAt = none := by
  exact ⟨rfl, rfl, rfl, rfl, rfl, rfl, rfl, rfl, rfl, rfl, rfl, rfl, rfl⟩

/-! ## Claim C4 — forwarding with unparseable headers -/

/-- A stored event whose header blob is missing (nil), so
`json.Unmarshal` of it fails. -/
def badHeadersEvent : EventRecord :=
  { id := "evt-b", type := "push", headers := none, payload := "pb",
    createdAt := 1, forwardedAt := none, status := "received",
    errorMsg := "", repository := "", sender := "", replayedFrom := "",
    originalTime := 0 }

/-- C4 counterexample: when the stored header set cannot be parsed,
`forwardEvent` makes no outbound request at all — the stored payload is
NOT sent to the target, contradicting the claim. -/
theorem forwardEvent_noSend_cex :
    (forwardEvent badHeadersEvent none (some 200)).bodySent ≠
      some badHeadersEvent.payload := by
  decide

/-- C4 (amended): a missing or unparseable stored header set aborts the
delivery attempt for that event before any request is made: nothing is
sent, the event is not marked forwarded (so the next sweep retries it),
and the forwarding-error counter is incremented. -/
theorem forwardEvent_headerFailure_skips (ev : EventRecord)
    (sendResult : Option Int) :
    forwardEvent ev none sendResult =
      { bodySent := none, markedForwarded := false, errorCounted := true } := rfl

/-! ## Claim C5 — listEvents ordering and total -/

/-- An earlier row (createdAt 1) stored before a later one. -/
def rowEarly : EventRow :=
  { id := "a", type := "push", payload := "pa", createdAt := 1,
    status := "received", errorMsg := "", repository := "", sender := "" }

/-- A later row (createdAt 5) stored after the earlier one. -/
def rowLate : EventRow :=
  { rowEarly with id := "b", createdAt := 5 }

/-- C5 counterexample: `Storage.ListEvents` (part_016) issues no
`ORDER BY` clause, so on a table holding an older row before a newer one
the returned page is in table order — not ordered by `createdAt`
descending. -/
theorem listEventsStorage_unordered_cex :
    ¬ List.Pairwise createdDesc (listEventsStorage [rowEarly, rowLate] {}).1 := by
  intro h
  have h2 : List.Pairwise createdDesc [rowEarly, rowLate] := h
  have := (List.pairwise_cons.mp h2).1 rowLate (List.mem_cons_self _ _)
  simp only [createdDesc, rowLate, rowEarly] at this
  omega

/-- C5 (amended): the base-store `ListEvents` (part_011) returns its
page ordered by `createdAt` descending, and both implementations return
a total equal to the number of matching rows, computed from the filter
conditions only — unchanged under any limit and offset. The part_016
`Storage.ListEvents` page, however, is not sorted (no ORDER BY). -/
theorem listEvents_order_and_total (tbl : List EventRow) (o : QueryOptions)
    (l x : Int) :
    List.Pairwise createdDesc (listEventsBase tbl o).1 ∧
    (listEventsBase tbl { o with limit := l, offset := x }).2 =
      countEventsBase tbl o ∧
    (listEventsStorage tbl { o with limit := l, offset := x }).2 =
      countEventsBase tbl o := by
  refine ⟨?_, rfl, rfl⟩
  have hs := pairwise_sortByCreatedAtDesc (tbl.filter (matchesOpts o))
  show List.Pairwise createdDesc
    (if 0 < o.limit then _ else sortByCreatedAtDesc (tbl.filter (matchesOpts o)))
  split
  · exact hs.sublist ((List.take_sublist _ _).trans (List.drop_sublist _ _))
  · exact hs

/-! ## Claim C9 — base-store pagination disabled when limit ≤ 0 -/

/-- C9: in `BaseStorage.ListEvents` the LIMIT/OFFSET pair is attached
only when `opts.Limit > 0`; with a zero or negative limit the page is
the full matching result set from the first row, whatever offset was
supplied. -/
theorem listEventsBase_ignores_pagination (tbl : List EventRow)
    (o : QueryOptions) (x : Int) (h : o.limit ≤ 0) :
    (listEventsBase tbl { o with offset := x }).1 =
      sortByCreatedAtDesc (tbl.filter (matchesOpts o)) := by
  show (if 0 < o.limit then _ else
    sortByCreatedAtDesc (tbl.filter (matchesOpts o))) = _
  rw [if_neg (by omega)]

/-- Witness for C9: a two-row table listed with limit 0 and offset 7
still yields both rows, newest first. -/
theorem listEventsBase_ignores_pagination_witness :
    (listEventsBase [rowEarly, rowLate] { limit := 0, offset := 7 }).1 =
      sortByCreatedAtDesc ([rowEarly, rowLate].filter
        (matchesOpts { limit := 0, offset := 0 })) :=
  listEventsBase_ignores_pagination [rowEarly, rowLate]
    { limit := 0, offset := 0 } 7 (by decide)

/-! ## Claim C6 — signature verification -/

/-- C6 counterexample: the code hex-decodes the provided digest and
compares bytes, so an UPPERCASE hex digest also verifies — verification
success is not equivalent to the header being exactly `"sha256="`
followed by the (lowercase) hex encoding of the digest. -/
theorem verifySignature_case_cex :
    verifySignature [171] "sha256=AB" = Except.ok () ∧
    "sha256=AB" ≠ "sha256=" ++ hexEncode [171] := by
  exact ⟨rfl, by decide⟩

/-- C6 (amended): verification succeeds exactly when the header value is
present, begins with the `"sha256="` text, and its remainder is a hex
string — of either letter case — that decodes to the HMAC-SHA256 digest
of the raw body under the shared secret; a missing, malformed or
mismatching header is rejected with an error. -/
theorem verifySignature_ok_iff (digest : List Nat) (sig : String) :
    verifySignature digest sig = Except.ok () ↔
      (listHasPref "sha256=".toList sig.toList = true ∧
       hexDecodeChars (sig.toList.drop 7) = some digest) := by
  unfold verifySignature
  by_cases h0 : sig = ""
  · subst h0
    rw [if_pos rfl]
    constructor
    · intro h; exact Except.noConfusion h
    · rintro ⟨hp, -⟩; exact absurd hp (by decide)
  · rw [if_neg h0]
    cases hpf : listHasPref "sha256=".toList sig.toList with
    | false =>
      simp only [hpf, Bool.not_false, if_pos]
      constructor
      · intro h; exact Except.noConfusion h
      · rintro ⟨hp, -⟩; exact Bool.noConfusion hp
    | true =>
      simp only [hpf, Bool.not_true, Bool.false_eq_true, if_false]
      cases hd : hexDecodeChars (sig.toList.drop 7) with
      | none =>
        constructor
        · intro h; exact Except.noConfusion h
        · rintro ⟨-, hsome⟩; exact Option.noConfusion hsome
      | some provided =>
        dsimp only
        by_cases he : provided = digest
        · subst he
          simp
        · rw [if_neg he]
          constructor
          · intro h; exact Except.noConfusion h
          · rintro ⟨-, hsome⟩
            exact absurd (Option.some.inj hsome) he

/-! ## Claim C7 — coalesced trigger queues -/

/-- C7: both trigger channels have buffer capacity one and are fed by a
non-blocking try-send, so under any interleaving of enqueue attempts and
worker receives at most one wake-up is ever pending, and an enqueue on a
full buffer leaves it unchanged (a no-op for the caller). -/
theorem trigger_queue_coalesced :
    (∀ ops : List TriggerOp, runTriggerQueue forwarderQueueCapacity ops ≤ 1) ∧
    (∀ ops : List TriggerOp, runTriggerQueue collectorQueueCapacity ops ≤ 1) ∧
    (∀ p : Nat, forwarderQueueCapacity ≤ p →
      tryEnqueue forwarderQueueCapacity p = p) ∧
    (∀ p : Nat, collectorQueueCapacity ≤ p →
      tryEnqueue collectorQueueCapacity p = p) := by
  refine ⟨?_, ?_, ?_, ?_⟩
  · intro ops; exact foldl_triggerStep_le forwarderQueueCapacity ops 0 (by omega)
  · intro ops; exact foldl_triggerStep_le collectorQueueCapacity ops 0 (by omega)
  · intro p hp
    unfold tryEnqueue
    rw [if_neg]
    omega
  · intro p hp
    unfold tryEnqueue
    rw [if_neg]
    omega

/-- Witness for C7: a burst of three enqueues leaves at most one pending
wake-up, and an enqueue on a full (one-signal) buffer is a no-op — for
both subsystems. -/
theorem trigger_queue_coalesced_witness :
    runTriggerQueue forwarderQueueCapacity
      [TriggerOp.enqueue, TriggerOp.enqueue, TriggerOp.enqueue] ≤ 1 ∧
    runTriggerQueue collectorQueueCapacity
      [TriggerOp.enqueue, TriggerOp.consume, TriggerOp.enqueue] ≤ 1 ∧
    tryEnqueue forwarderQueueCapacity 1 = 1 ∧
    tryEnqueue collectorQueueCapacity 1 = 1 :=
  ⟨trigger_queue_coalesced.1 _, trigger_queue_coalesced.2.1 _,
   trigger_queue_coalesced.2.2.1 1 (by decide),
   trigger_queue_coalesced.2.2.2 1 (by decide)⟩

/-! ## Claim C8 — allowlist refresh atomicity -/

/-- A validator already holding one range, refreshed earlier. -/
def validatorPrior : IPValidator :=
  { webhookCIDR := [{ network := 167772160, bits := 8 }], lastUpdate := 3 }

/-- C8: a refresh that fails at the fetch/decode step or at any CIDR
parse leaves the validator's CIDR set and last-update stamp exactly as
they were; a successful refresh implies every fetched range parsed, and
replaces the whole state in a single step with the parsed set and the
refresh instant. -/
theorem ipValidator_update_atomic (fetched : Option (List String))
    (now : Int) (v : IPValidator) :
    (∀ e, (runUpdate fetched now v).2 = Except.error e →
      (runUpdate fetched now v).1 = v) ∧
    ((runUpdate fetched now v).2 = Except.ok () →
      ∃ hooks cidrs, fetched = some hooks ∧
        parseCIDRList hooks = Except.ok cidrs ∧
        (∀ c ∈ hooks, (parseCIDR c).isSome) ∧
        (runUpdate fetched now v).1 =
          { webhookCIDR := cidrs, lastUpdate := now }) := by
  cases fetched with
  | none =>
    refine ⟨fun e _ => rfl, fun h => ?_⟩
    exact Except.noConfusion h
  | some hooks =>
    cases hpl : parseCIDRList hooks with
    | error c =>
      constructor
      · intro e _
        simp [runUpdate, hpl]
      · intro h
        simp [runUpdate, hpl] at h
    | ok cs =>
      constructor
      · intro e h
        simp [runUpdate, hpl] at h
      · intro _
        exact ⟨hooks, cs, rfl, hpl, parseCIDRList_ok_all_parse hpl,
          by simp [runUpdate, hpl]⟩

/-- Witness for C8: refreshing with an unparseable range list retains
the prior one-range set and stamp, while refreshing with a good list
replaces both. -/
theorem ipValidator_update_atomic_witness :
    (runUpdate (some ["bad"]) 9 validatorPrior).1 = validatorPrior ∧
    (∃ hooks cidrs, (some ["10.0.0.0/8"] : Option (List String)) = some hooks ∧
      parseCIDRList hooks = Except.ok cidrs ∧
      (∀ c ∈ hooks, (parseCIDR c).isSome) ∧
      (runUpdate (some ["10.0.0.0/8"]) 7 validatorPrior).1 =
        { webhookCIDR := cidrs, lastUpdate := 7 }) :=
  ⟨(ipValidator_update_atomic (some ["bad"]) 9 validatorPrior).1
      "parsing CIDR bad" rfl,
   (ipValidator_update_atomic (some ["10.0.0.0/8"]) 7 validatorPrior).2 rfl⟩

/-! ## Claim C10 — empty allowlist fails closed -/

/-- C10: with an empty CIDR set — the validator's initial state before
any successful refresh or test override — `IsGitHubIP` returns false for
every address string, parseable or not. -/
theorem isGitHubIP_emptySet_false (v : IPValidator) (ipStr : String)
    (h : v.webhookCIDR = []) :
    isGitHubIP v ipStr = false ∧ newIPValidator.webhookCIDR = [] := by
  refine ⟨?_, rfl⟩
  unfold isGitHubIP
  cases parseIPv4 ipStr with
  | none => rfl
  | some ip => simp [h]

/-- Witness for C10: the freshly constructed validator rejects a real
GitHub hook address (and any other string) until a refresh succeeds. -/
theorem isGitHubIP_emptySet_false_witness :
    isGitHubIP newIPValidator "192.30.252.1" = false ∧
    newIPValidator.webhookCIDR = [] :=
  isGitHubIP_emptySet_false newIPValidator "192.30.252.1" rfl

end Hubproxy
